import Mathlib

/-!
Shallow embedding of `cachef.py`: a line-delimited cache of canonicalized
filesystem paths stored in a single text file.

File contents are modelled as `List Char`.  The state visible to the
program is the parent directory of the cache file (exists or not) and the
cache file itself (`none` when absent, `some c` when present with raw
content `c`).  Path canonicalization (`Path(s).resolve()`) and filesystem
existence of arbitrary paths (`Path(s).exists()`) are environment
behaviour, passed in as function parameters `resolve` and `pathExists`.

Python-level string/file primitives are modelled explicitly:
  * iterating a file yields its newline-separated lines (`fileLines`),
  * `str.strip()` is `pyStrip`,
  * `"\n".join(...)` is `pyJoinNl`.

Exceptions: opening a missing file raises the builtin `FileNotFoundError`;
the repository defines its own `CacheFileNotFound` class, raised only in
`clean_cache_file`.  Both appear in the error type `PyError`.
-/

namespace Cachef

/-- Errors a run of the program can raise: the Python builtin
`FileNotFoundError` (from `open` on a missing file) and the repository's
own `CacheFileNotFound` exception class (`class CacheFileNotFound(Exception)`). -/
inductive PyError where
  | builtinFileNotFound
  | cacheFileNotFound
deriving DecidableEq

instance exceptDecEq {ε α : Type} [DecidableEq ε] [DecidableEq α] :
    DecidableEq (Except ε α) := fun a b =>
  match a, b with
  | .error e1, .error e2 =>
      if h : e1 = e2 then .isTrue (by rw [h]) else .isFalse (by simp [h])
  | .error _, .ok _ => .isFalse (by simp)
  | .ok _, .error _ => .isFalse (by simp)
  | .ok x, .ok y =>
      if h : x = y then .isTrue (by rw [h]) else .isFalse (by simp [h])

/-- The filesystem state the program manipulates: whether the cache file's
parent directory exists, and the cache file itself (`none` = absent,
`some c` = present with raw character content `c`). -/
structure FS where
  parentExists : Bool
  file : Option (List Char)
deriving DecidableEq

/-- Python whitespace characters recognized by `str.strip()` (ASCII part). -/
def isPySpace (c : Char) : Bool :=
  c == ' ' || c == '\t' || c == '\n' || c == '\r' || c == '\x0b' || c == '\x0c'

/-- `str.strip()`: drop leading and trailing whitespace. -/
def pyStrip (l : List Char) : List Char :=
  ((l.dropWhile isPySpace).reverse.dropWhile isPySpace).reverse

/-- Split character content at newline characters; the separators are
dropped.  Always returns at least one (possibly empty) piece. -/
def splitNl : List Char → List (List Char)
  | [] => [[]]
  | c :: cs =>
    if c = '\n' then [] :: splitNl cs
    else
      match splitNl cs with
      | [] => [[c]]
      | l :: ls => (c :: l) :: ls

/-- The lines yielded by iterating a Python text file with content `c`
(with the terminating newline of each line removed; every use site strips
the line anyway).  Python yields no trailing empty line when the content
is empty or ends in a newline, which is exactly when the last piece of
`splitNl` is empty. -/
def fileLines (c : List Char) : List (List Char) :=
  let r := splitNl c
  if r.getLast? = some [] then r.dropLast else r

/-- Content consisting of the given lines, each terminated by a newline:
the shape every write of this program produces line-wise. -/
def writeLines (ls : List (List Char)) : List Char :=
  (ls.map (fun l => l ++ ['\n'])).flatten

/-- Python `"\n".join(ls)`. -/
def pyJoinNl : List (List Char) → List Char
  | [] => []
  | [l] => l
  | l :: ls => l ++ '\n' :: pyJoinNl ls

/-- `_cache_contents(cache_file)`: open the file for reading (builtin
`FileNotFoundError` when absent) and return the tuple of stripped lines. -/
def _cache_contents (fs : FS) : Except PyError (List (List Char)) :=
  match fs.file with
  | none => .error .builtinFileNotFound
  | some c => .ok ((fileLines c).map pyStrip)

/-- `_already_cached(realpath, cache_file)`: whether `str(realpath)` occurs
among the cache contents. -/
def _already_cached (realpath : List Char) (fs : FS) : Except PyError Bool :=
  match _cache_contents fs with
  | .error e => .error e
  | .ok cache_contents => .ok (decide (realpath ∈ cache_contents))

/-- `_not_cached_realpaths(filepaths, cache_file)`: read the cache contents
once (the batch snapshot), then yield `Path(filepath).resolve()` for every
input whose resolved form is not in that snapshot. -/
def _not_cached_realpaths (resolve : List Char → List Char)
    (filepaths : List (List Char)) (fs : FS) :
    Except PyError (List (List Char)) :=
  match _cache_contents fs with
  | .error e => .error e
  | .ok cache_contents =>
      .ok (filepaths.filterMap (fun filepath =>
        let realpath := resolve filepath
        if realpath ∈ cache_contents then none else some realpath))

/-- The lines `clean_cache_file` keeps: the stripped lines of content `c`
whose path exists on the live filesystem, in original order. -/
def survivors (pathExists : List Char → Bool) (c : List Char) :
    List (List Char) :=
  (fileLines c).filterMap (fun line =>
    if pathExists (pyStrip line) then some (pyStrip line) else none)

/-- `clean_cache_file(cache_file)`: raise `CacheFileNotFound` when the file
is absent; otherwise rewrite it with `"\n".join(existing) + "\n"` where
`existing` are the stripped lines whose path exists. -/
def clean_cache_file (pathExists : List Char → Bool) (fs : FS) :
    Except PyError Unit × FS :=
  match fs.file with
  | none => (.error .cacheFileNotFound, fs)
  | some c =>
      (.ok (), { fs with file := some (pyJoinNl (survivors pathExists c) ++ ['\n']) })

/-- `_setup_cache_file(cache_file)`: create the parent directory when
absent, then create an empty file when absent. -/
def _setup_cache_file (fs : FS) : FS :=
  let fs1 := if fs.parentExists then fs else { fs with parentExists := true }
  match fs1.file with
  | some _ => fs1
  | none => { fs1 with file := some [] }

/-- `_cache_realpath(realpath, cache_file_io)`: append `str(realpath)` and
a newline to content `c` (the file is open in append mode). -/
def _cache_realpath (realpath : List Char) (c : List Char) : List Char :=
  c ++ realpath ++ ['\n']

/-- `cache_filepath(filepath, cache_file)`: resolve, return unchanged when
already cached, otherwise append (append-mode `open` creates the file when
absent; that branch is unreachable since `_already_cached` has already
succeeded, hence the file exists). -/
def cache_filepath (resolve : List Char → List Char) (filepath : List Char)
    (fs : FS) : Except PyError Unit × FS :=
  let real := resolve filepath
  match _already_cached real fs with
  | .error e => (.error e, fs)
  | .ok true => (.ok (), fs)
  | .ok false =>
      match fs.file with
      | none => (.ok (), { fs with file := some (_cache_realpath real []) })
      | some c => (.ok (), { fs with file := some (_cache_realpath real c) })

/-- `cache_filepaths(filepaths, cache_file)`: set up the file, then append
each realpath the batch snapshot does not already contain.  After setup the
file exists, so the snapshot read cannot fail; the error branch is
unreachable and returns the state untouched. -/
def cache_filepaths (resolve : List Char → List Char)
    (filepaths : List (List Char)) (fs : FS) : FS :=
  let fs1 := _setup_cache_file fs
  match _not_cached_realpaths resolve filepaths fs1 with
  | .error _ => fs1
  | .ok realpaths =>
      match fs1.file with
      | none => fs1
      | some c =>
          { fs1 with
            file := some (realpaths.foldl (fun acc r => _cache_realpath r acc) c) }

/-- Python truthiness of `os.getenv` results: `None` and `""` are falsy. -/
def pyTruthy : Option String → Bool
  | none => false
  | some s => !s.isEmpty

/-- `Path(a) / b` for a relative component `b`. -/
def pathJoin (a b : String) : String := a ++ "/" ++ b

/-- `CACHE_DIR`: `Path(_xdg_cache_home) / "cachef" if _xdg_cache_home else
Path.home() / "cachef"`, with `home` standing for `Path.home()` (the value
of `$HOME`). -/
def CACHE_DIR (xdg : Option String) (home : String) : String :=
  if pyTruthy xdg then pathJoin (xdg.getD "") "cachef" else pathJoin home "cachef"

/-- `CACHE_FILE = CACHE_DIR / "cachef.txt"`. -/
def CACHE_FILE (xdg : Option String) (home : String) : String :=
  pathJoin (CACHE_DIR xdg home) "cachef.txt"

/-- Modelled from the spec: the default cache file location as section 6
words it — `$XDG_CACHE_HOME/cachef/cachef.txt` if that variable is set and
non-empty, else `$HOME/cachef/cachef.txt`. -/
def specDefaultLocation (xdg : Option String) (home : String) : String :=
  match xdg with
  | some s => if s ≠ "" then s ++ "/cachef/cachef.txt" else home ++ "/cachef/cachef.txt"
  | none => home ++ "/cachef/cachef.txt"

/-- Well-formed cache content: a sequence of newline-terminated lines,
none of which contains an interior newline.  This is the invariant the
spec states in section 3 (trailing newline after every successful write). -/
def WellFormed (c : List Char) : Prop :=
  ∃ ls : List (List Char), (∀ l ∈ ls, ('\n' : Char) ∉ l) ∧ c = writeLines ls

/-- A concrete resolver under which the two distinct literal inputs `a`
and `./a` canonicalize to the same absolute path `/a`, as
`Path(...).resolve()` does from working directory `/`. -/
def resolveDemo (s : List Char) : List Char :=
  if s = ['a'] ∨ s = ['.', '/', 'a'] then ['/', 'a'] else s

/-! ## Line-splitting lemmas -/

theorem splitNl_ne_nil (l : List Char) : splitNl l ≠ [] := by
  cases l with
  | nil => simp [splitNl]
  | cons c cs =>
    simp only [splitNl]
    split
    · simp
    · split <;> simp

theorem nl_not_mem_of_mem_splitNl (l : List Char) (p : List Char)
    (hp : p ∈ splitNl l) : ('\n' : Char) ∉ p := by
  induction l generalizing p with
  | nil =>
    simp [splitNl] at hp
    simp [hp]
  | cons c cs ih =>
    simp only [splitNl] at hp
    by_cases hc : c = '\n'
    · rw [if_pos hc] at hp
      rcases List.mem_cons.mp hp with h | h
      · simp [h]
      · exact ih p h
    · rw [if_neg hc] at hp
      cases hsp : splitNl cs with
      | nil => exact absurd hsp (splitNl_ne_nil cs)
      | cons l0 ls =>
        rw [hsp] at hp
        rcases List.mem_cons.mp hp with h | h
        · subst h
          intro hm
          rcases List.mem_cons.mp hm with h1 | h1
          · exact hc h1.symm
          · exact ih l0 (by rw [hsp]; exact List.mem_cons_self _ _) h1
        · exact ih p (by rw [hsp]; exact List.mem_cons_of_mem _ h)

theorem splitNl_append_nl (s t : List Char) (hs : ('\n' : Char) ∉ s) :
    splitNl (s ++ '\n' :: t) = s :: splitNl t := by
  induction s with
  | nil => simp [splitNl]
  | cons c s ih =>
    have hc : ¬ c = '\n' := by
      intro h
      exact hs (by simp [h])
    have hs' : ('\n' : Char) ∉ s := fun h => hs (List.mem_cons_of_mem _ h)
    simp only [List.cons_append, splitNl]
    rw [if_neg hc, show s.append ('\n' :: t) = s ++ '\n' :: t from rfl, ih hs']

theorem splitNl_writeLines (ls : List (List Char))
    (h : ∀ l ∈ ls, ('\n' : Char) ∉ l) :
    splitNl (writeLines ls) = ls ++ [[]] := by
  induction ls with
  | nil => simp [writeLines, splitNl]
  | cons l ls ih =>
    have h1 : ('\n' : Char) ∉ l := h l (List.mem_cons_self _ _)
    have h2 : ∀ m ∈ ls, ('\n' : Char) ∉ m :=
      fun m hm => h m (List.mem_cons_of_mem _ hm)
    have hw : writeLines (l :: ls) = l ++ '\n' :: writeLines ls := by
      simp [writeLines]
    rw [hw, splitNl_append_nl l _ h1, ih h2]
    simp

theorem fileLines_writeLines (ls : List (List Char))
    (h : ∀ l ∈ ls, ('\n' : Char) ∉ l) :
    fileLines (writeLines ls) = ls := by
  simp [fileLines, splitNl_writeLines ls h]

theorem writeLines_append (ls ms : List (List Char)) :
    writeLines (ls ++ ms) = writeLines ls ++ writeLines ms := by
  simp [writeLines]

theorem writeLines_singleton (r : List Char) : writeLines [r] = r ++ ['\n'] := by
  simp [writeLines]

theorem pyJoinNl_cons_append_nl (l : List Char) (ls : List (List Char)) :
    pyJoinNl (l :: ls) ++ ['\n'] = writeLines (l :: ls) := by
  induction ls generalizing l with
  | nil => simp [pyJoinNl, writeLines]
  | cons m ms ih =>
    have h1 : pyJoinNl (l :: m :: ms) = l ++ '\n' :: pyJoinNl (m :: ms) := rfl
    have h2 := ih m
    rw [h1]
    simp only [writeLines, List.map_cons, List.flatten_cons] at h2 ⊢
    simp only [List.append_assoc, List.cons_append, List.singleton_append]
    rw [h2]
    simp

theorem pyJoinNl_append_nl (ls : List (List Char)) (h : ls ≠ []) :
    pyJoinNl ls ++ ['\n'] = writeLines ls := by
  cases ls with
  | nil => exact absurd rfl h
  | cons l ls => exact pyJoinNl_cons_append_nl l ls

/-! ## `pyStrip` lemmas -/

theorem dropWhile_head?_false {α : Type} (p : α → Bool) (l : List α) (a : α)
    (h : (l.dropWhile p).head? = some a) : p a = false := by
  have hm := List.head?_dropWhile_not p l
  rw [h] at hm
  exact hm

theorem dropWhile_eq_self_of_head? {α : Type} (p : α → Bool) (l : List α)
    (h : ∀ a, l.head? = some a → p a = false) : l.dropWhile p = l := by
  cases l with
  | nil => rfl
  | cons c cs =>
    have hc := h c rfl
    rw [List.dropWhile_cons_of_neg (by simp [hc])]

theorem mem_of_mem_dropWhile {α : Type} (p : α → Bool) (l : List α) (a : α)
    (h : a ∈ l.dropWhile p) : a ∈ l := by
  induction l with
  | nil => simp [List.dropWhile] at h
  | cons c cs ih =>
    by_cases hc : p c
    · rw [List.dropWhile_cons_of_pos hc] at h
      exact List.mem_cons_of_mem _ (ih h)
    · rw [List.dropWhile_cons_of_neg hc] at h
      exact h

theorem pyStrip_decomp (l : List Char) :
    ∃ u, l.dropWhile isPySpace = pyStrip l ++ u := by
  refine ⟨((l.dropWhile isPySpace).reverse.takeWhile isPySpace).reverse, ?_⟩
  conv_lhs =>
    rw [← (l.dropWhile isPySpace).reverse_reverse,
      ← List.takeWhile_append_dropWhile (p := isPySpace)
        (l := (l.dropWhile isPySpace).reverse)]
  rw [List.reverse_append]
  rfl

theorem pyStrip_head?_false (l : List Char) (a : Char)
    (h : (pyStrip l).head? = some a) : isPySpace a = false := by
  obtain ⟨u, hu⟩ := pyStrip_decomp l
  have hdw : (l.dropWhile isPySpace).head? = some a := by
    rw [hu]
    cases hps : pyStrip l with
    | nil => rw [hps] at h; simp at h
    | cons b bs =>
      rw [hps] at h
      simp only [List.head?_cons, Option.some.injEq] at h
      subst h
      rfl
  exact dropWhile_head?_false _ _ _ hdw

theorem pyStrip_reverse_head?_false (l : List Char) (a : Char)
    (h : (pyStrip l).reverse.head? = some a) : isPySpace a = false := by
  rw [pyStrip, List.reverse_reverse] at h
  exact dropWhile_head?_false _ _ _ h

theorem pyStrip_idem (l : List Char) : pyStrip (pyStrip l) = pyStrip l := by
  have h1 : (pyStrip l).dropWhile isPySpace = pyStrip l :=
    dropWhile_eq_self_of_head? _ _ (fun a ha => pyStrip_head?_false l a ha)
  have h2 : (pyStrip l).reverse.dropWhile isPySpace = (pyStrip l).reverse :=
    dropWhile_eq_self_of_head? _ _ (fun a ha => pyStrip_reverse_head?_false l a ha)
  calc pyStrip (pyStrip l)
      = (((pyStrip l).dropWhile isPySpace).reverse.dropWhile isPySpace).reverse := rfl
    _ = ((pyStrip l).reverse.dropWhile isPySpace).reverse := by rw [h1]
    _ = (pyStrip l).reverse.reverse := by rw [h2]
    _ = pyStrip l := List.reverse_reverse _

theorem mem_of_mem_pyStrip (l : List Char) (a : Char) (h : a ∈ pyStrip l) :
    a ∈ l := by
  rw [pyStrip, List.mem_reverse] at h
  have h1 := mem_of_mem_dropWhile _ _ _ h
  rw [List.mem_reverse] at h1
  exact mem_of_mem_dropWhile _ _ _ h1

/-! ## Contents lemmas -/

theorem cache_contents_writeLines (b : Bool) (ls : List (List Char))
    (h : ∀ l ∈ ls, ('\n' : Char) ∉ l) :
    _cache_contents ⟨b, some (writeLines ls)⟩ = .ok (ls.map pyStrip) := by
  simp [_cache_contents, fileLines_writeLines ls h]

/-! ## Operation-level helper lemmas -/

theorem setup_file (fs : FS) :
    (_setup_cache_file fs).file = some (fs.file.getD []) := by
  cases hf : fs.file <;> cases hp : fs.parentExists <;>
    simp [_setup_cache_file, hf, hp]

theorem setup_parent (fs : FS) : (_setup_cache_file fs).parentExists = true := by
  cases hf : fs.file <;> cases hp : fs.parentExists <;>
    simp [_setup_cache_file, hf, hp]

theorem fileLines_nil : fileLines [] = [] := rfl

theorem foldl_cache_realpath (rs : List (List Char)) (c : List Char) :
    rs.foldl (fun acc r => _cache_realpath r acc) c = c ++ writeLines rs := by
  induction rs generalizing c with
  | nil => simp [writeLines]
  | cons r rs ih =>
    rw [List.foldl_cons, ih]
    simp [_cache_realpath, writeLines, List.append_assoc]

theorem cache_filepath_of_mem (resolve : List Char → List Char) (p : List Char)
    (fs : FS) (c : List Char) (hf : fs.file = some c)
    (hmem : resolve p ∈ (fileLines c).map pyStrip) :
    cache_filepath resolve p fs = (.ok (), fs) := by
  simp [cache_filepath, _already_cached, _cache_contents, hf, hmem]

theorem cache_filepath_of_not_mem (resolve : List Char → List Char)
    (p : List Char) (fs : FS) (c : List Char) (hf : fs.file = some c)
    (hmem : resolve p ∉ (fileLines c).map pyStrip) :
    cache_filepath resolve p fs =
      (.ok (), { fs with file := some (c ++ resolve p ++ ['\n']) }) := by
  simp [cache_filepath, _already_cached, _cache_contents, hf, hmem,
    _cache_realpath]

/-! ## Claims -/

/-- C1: `insert_many` (`cache_filepaths`) of three paths on an empty or
nonexistent cache file, followed by `read_all` (`_cache_contents`), yields
exactly the three canonical paths in input order (assuming the canonical
paths are genuine path strings: whitespace-trimmed and newline-free, and
pairwise distinct). -/
theorem C1_insert_many_round_trip (resolve : List Char → List Char)
    (p1 p2 p3 : List Char) (fs : FS)
    (hfile : fs.file = none ∨ fs.file = some [])
    (hgood : ∀ p ∈ [p1, p2, p3],
      pyStrip (resolve p) = resolve p ∧ ('\n' : Char) ∉ resolve p)
    (hdist : resolve p1 ≠ resolve p2 ∧ resolve p1 ≠ resolve p3 ∧
      resolve p2 ≠ resolve p3) :
    _cache_contents (cache_filepaths resolve [p1, p2, p3] fs) =
      .ok [resolve p1, resolve p2, resolve p3] := by
  have hsf : (_setup_cache_file fs).file = some [] := by
    rcases hfile with h | h <;> rw [setup_file, h] <;> rfl
  have hc1 : _cache_contents (_setup_cache_file fs) = .ok [] := by
    simp [_cache_contents, hsf, fileLines_nil]
  have hnc : _not_cached_realpaths resolve [p1, p2, p3] (_setup_cache_file fs) =
      .ok [resolve p1, resolve p2, resolve p3] := by
    simp [_not_cached_realpaths, hc1]
  have hout : cache_filepaths resolve [p1, p2, p3] fs =
      { _setup_cache_file fs with
        file := some (writeLines [resolve p1, resolve p2, resolve p3]) } := by
    simp [cache_filepaths, hnc, hsf, _cache_realpath, writeLines,
      List.append_assoc]
  have hln : ∀ l ∈ [resolve p1, resolve p2, resolve p3], ('\n' : Char) ∉ l := by
    intro l hl
    simp only [List.mem_cons, List.not_mem_nil, or_false] at hl
    rcases hl with h | h | h <;> subst h
    · exact (hgood p1 (by simp)).2
    · exact (hgood p2 (by simp)).2
    · exact (hgood p3 (by simp)).2
  rw [hout]
  simp [_cache_contents, fileLines_writeLines _ hln,
    (hgood p1 (by simp)).1, (hgood p2 (by simp)).1, (hgood p3 (by simp)).1]

/-- Witness for C1 at a concrete resolver and inputs. -/
theorem C1_witness :
    ((⟨false, none⟩ : FS).file = none ∨ (⟨false, none⟩ : FS).file = some []) ∧
    _cache_contents
      (cache_filepaths (fun s => '/' :: s) [['a'], ['b'], ['c']]
        ⟨false, none⟩) =
      .ok [['/', 'a'], ['/', 'b'], ['/', 'c']] := by
  refine ⟨Or.inl rfl, ?_⟩
  exact C1_insert_many_round_trip (fun s => '/' :: s) ['a'] ['b'] ['c']
    ⟨false, none⟩ (Or.inl rfl) (by decide) (by decide)

theorem contents_of_writeLines (fs : FS) (ls : List (List Char))
    (hf : fs.file = some (writeLines ls))
    (hln : ∀ l ∈ ls, ('\n' : Char) ∉ l) :
    _cache_contents fs = .ok (ls.map pyStrip) := by
  simp [_cache_contents, hf, fileLines_writeLines ls hln]

/-- What one `cache_filepath` call does to a well-formed file: it succeeds,
keeps the file well-formed, afterwards the resolved path is among the
stripped contents, and the contents are unchanged (when the path was
already present) or extended by exactly that path (when it was not). -/
theorem cache_filepath_post (resolve : List Char → List Char) (p : List Char)
    (fs : FS) (ls : List (List Char))
    (hf : fs.file = some (writeLines ls))
    (hln : ∀ l ∈ ls, ('\n' : Char) ∉ l)
    (hstr : pyStrip (resolve p) = resolve p)
    (hnl : ('\n' : Char) ∉ resolve p) :
    (cache_filepath resolve p fs).1 = .ok () ∧
    ∃ ms : List (List Char),
      (∀ l ∈ ms, ('\n' : Char) ∉ l) ∧
      (cache_filepath resolve p fs).2.file = some (writeLines ms) ∧
      (cache_filepath resolve p fs).2.parentExists = fs.parentExists ∧
      resolve p ∈ ms.map pyStrip ∧
      ms.map pyStrip =
        (if resolve p ∈ ls.map pyStrip then ls.map pyStrip
          else ls.map pyStrip ++ [resolve p]) := by
  by_cases hmem : resolve p ∈ ls.map pyStrip
  · have hfl : resolve p ∈ (fileLines (writeLines ls)).map pyStrip := by
      rw [fileLines_writeLines ls hln]; exact hmem
    have hcall := cache_filepath_of_mem resolve p fs (writeLines ls) hf hfl
    refine ⟨by rw [hcall], ls, hln, by rw [hcall]; exact hf, by rw [hcall],
      hmem, by rw [if_pos hmem]⟩
  · have hfl : resolve p ∉ (fileLines (writeLines ls)).map pyStrip := by
      rw [fileLines_writeLines ls hln]; exact hmem
    have hcall := cache_filepath_of_not_mem resolve p fs (writeLines ls) hf hfl
    have hln2 : ∀ l ∈ ls ++ [resolve p], ('\n' : Char) ∉ l := by
      intro l hl
      rcases List.mem_append.mp hl with h | h
      · exact hln l h
      · rw [List.mem_singleton.mp h]; exact hnl
    have happ : writeLines ls ++ resolve p ++ ['\n'] =
        writeLines (ls ++ [resolve p]) := by
      rw [writeLines_append, writeLines_singleton, List.append_assoc]
    refine ⟨by rw [hcall], ls ++ [resolve p], hln2, ?_, by rw [hcall], ?_, ?_⟩
    · rw [hcall]
      simpa using happ
    · simp [hstr]
    · rw [if_neg hmem]
      simp [hstr]

/-- Second insert of an already-present path is a no-op, stated at the
well-formed-file level. -/
theorem cache_filepath_noop (resolve : List Char → List Char) (p : List Char)
    (fs : FS) (ms : List (List Char))
    (hf : fs.file = some (writeLines ms))
    (hln : ∀ l ∈ ms, ('\n' : Char) ∉ l)
    (hmem : resolve p ∈ ms.map pyStrip) :
    cache_filepath resolve p fs = (.ok (), fs) := by
  refine cache_filepath_of_mem resolve p fs (writeLines ms) hf ?_
  rw [fileLines_writeLines ms hln]
  exact hmem

/-- C2 counterexample: on an initialized cache file that already holds the
line `/a` twice (a corrupt-but-tolerated file), inserting `/a` twice is a
pair of no-ops and two lines equal to the canonical path remain — not
exactly one, refuting the claim for arbitrary initialized files. -/
theorem C2_counterexample :
    (cache_filepath (fun s => s) ['/', 'a']
        ((cache_filepath (fun s => s) ['/', 'a']
          ⟨true, some ['/', 'a', '\n', '/', 'a', '\n']⟩).2)).2.file =
      some ['/', 'a', '\n', '/', 'a', '\n'] ∧
    ¬ ((fileLines ['/', 'a', '\n', '/', 'a', '\n']).map pyStrip).count
        ['/', 'a'] = 1 := by
  decide

/-- C2 (amended): on a well-formed cache file, inserting the same path in
two separate calls makes the second call a no-op (it returns the file
unchanged); and when the canonical path occurs at most once in the initial
contents — in particular on any file without pre-existing duplicate
lines — exactly one line equal to it remains afterwards. -/
theorem C2_insert_twice_amended (resolve : List Char → List Char)
    (p : List Char) (fs : FS) (ls : List (List Char))
    (hf : fs.file = some (writeLines ls))
    (hln : ∀ l ∈ ls, ('\n' : Char) ∉ l)
    (hstr : pyStrip (resolve p) = resolve p)
    (hnl : ('\n' : Char) ∉ resolve p) :
    cache_filepath resolve p ((cache_filepath resolve p fs).2) =
      (.ok (), (cache_filepath resolve p fs).2) ∧
    ((ls.map pyStrip).count (resolve p) ≤ 1 →
      ∃ cs : List (List Char),
        _cache_contents ((cache_filepath resolve p
            ((cache_filepath resolve p fs).2)).2) = .ok cs ∧
        cs.count (resolve p) = 1) := by
  obtain ⟨h1, ms, hmln, hmf, hmp, hmem, hcontents⟩ :=
    cache_filepath_post resolve p fs ls hf hln hstr hnl
  have hnoop := cache_filepath_noop resolve p _ ms hmf hmln hmem
  refine ⟨hnoop, fun hcount => ⟨ms.map pyStrip, ?_, ?_⟩⟩
  · rw [hnoop]
    exact contents_of_writeLines _ ms hmf hmln
  · rw [hcontents]
    by_cases hm : resolve p ∈ ls.map pyStrip
    · rw [if_pos hm]
      have hpos : 0 < (ls.map pyStrip).count (resolve p) :=
        List.count_pos_iff.mpr hm
      omega
    · rw [if_neg hm, List.count_append, List.count_eq_zero_of_not_mem hm]
      simp

/-- Witness for the amended C2 at a concrete resolver, path and file. -/
theorem C2_witness :
    cache_filepath (fun s => s) ['/', 'a']
        ((cache_filepath (fun s => s) ['/', 'a'] ⟨true, some []⟩).2) =
      (.ok (), (cache_filepath (fun s => s) ['/', 'a'] ⟨true, some []⟩).2) ∧
    ∃ cs : List (List Char),
      _cache_contents ((cache_filepath (fun s => s) ['/', 'a']
          ((cache_filepath (fun s => s) ['/', 'a'] ⟨true, some []⟩).2)).2) =
        .ok cs ∧ cs.count ['/', 'a'] = 1 :=
  ⟨(C2_insert_twice_amended (fun s => s) ['/', 'a'] ⟨true, some []⟩ [] rfl
      (by simp) (by decide) (by decide)).1,
    (C2_insert_twice_amended (fun s => s) ['/', 'a'] ⟨true, some []⟩ [] rfl
      (by simp) (by decide) (by decide)).2 (by decide)⟩

/-- C7: inserting `p` and then, in a separate call, inserting the already
canonical (absolute resolved) form of `p` treats both as the same entry:
the second call is a no-op, because canonicalization is idempotent
(`resolve (resolve p) = resolve p` on the host). -/
theorem C7_canonical_second_noop (resolve : List Char → List Char)
    (p : List Char) (fs : FS) (ls : List (List Char))
    (hf : fs.file = some (writeLines ls))
    (hln : ∀ l ∈ ls, ('\n' : Char) ∉ l)
    (hidem : resolve (resolve p) = resolve p)
    (hstr : pyStrip (resolve p) = resolve p)
    (hnl : ('\n' : Char) ∉ resolve p) :
    (cache_filepath resolve p fs).1 = .ok () ∧
    cache_filepath resolve (resolve p) ((cache_filepath resolve p fs).2) =
      (.ok (), (cache_filepath resolve p fs).2) := by
  obtain ⟨h1, ms, hmln, hmf, hmp, hmem, hcontents⟩ :=
    cache_filepath_post resolve p fs ls hf hln hstr hnl
  refine ⟨h1, cache_filepath_noop resolve (resolve p) _ ms hmf hmln ?_⟩
  rw [hidem]
  exact hmem

/-- Witness for C7 at a concrete resolver, path and file. -/
theorem C7_witness :
    (cache_filepath (fun s => s) ['a'] ⟨true, some []⟩).1 = .ok () ∧
    cache_filepath (fun s => s) ['a']
        ((cache_filepath (fun s => s) ['a'] ⟨true, some []⟩).2) =
      (.ok (), (cache_filepath (fun s => s) ['a'] ⟨true, some []⟩).2) :=
  C7_canonical_second_noop (fun s => s) ['a'] ⟨true, some []⟩ [] rfl (by simp)
    rfl (by decide) (by decide)

/-! ## Survivor lemmas for `clean_cache_file` -/

theorem mem_of_mem_fileLines (c : List Char) (l : List Char)
    (h : l ∈ fileLines c) : l ∈ splitNl c := by
  simp only [fileLines] at h
  split at h
  · exact (List.dropLast_prefix _).subset h
  · exact h

theorem nl_not_mem_of_mem_fileLines (c : List Char) (l : List Char)
    (h : l ∈ fileLines c) : ('\n' : Char) ∉ l :=
  nl_not_mem_of_mem_splitNl c l (mem_of_mem_fileLines c l h)

theorem survivors_spec (pathExists : List Char → Bool) (c : List Char) :
    ∀ s ∈ survivors pathExists c, ('\n' : Char) ∉ s ∧ pyStrip s = s := by
  intro s hs
  obtain ⟨line, hline, hif⟩ := List.mem_filterMap.mp hs
  by_cases hex : pathExists (pyStrip line)
  · rw [if_pos hex, Option.some.injEq] at hif
    subst hif
    constructor
    · intro hn
      exact nl_not_mem_of_mem_fileLines c line hline
        (mem_of_mem_pyStrip line '\n' hn)
    · exact pyStrip_idem line
  · rw [if_neg hex] at hif
    cases hif

theorem map_pyStrip_self (sv : List (List Char))
    (h : ∀ s ∈ sv, pyStrip s = s) : sv.map pyStrip = sv := by
  induction sv with
  | nil => rfl
  | cons s ss ih =>
    rw [List.map_cons, h s (List.mem_cons_self _ _),
      ih (fun t ht => h t (List.mem_cons_of_mem _ ht))]

/-- C3 counterexample: cleaning an existing file whose only line names a
nonexistent path rewrites the file to a single newline character — not to
the empty content that "each surviving line followed by a newline" demands
when zero lines survive. -/
theorem C3_counterexample :
    clean_cache_file (fun _ => false) ⟨true, some ['x', '\n']⟩ =
      (.ok (), ⟨true, some ['\n']⟩) ∧
    survivors (fun _ => false) ['x', '\n'] = [] ∧
    (some ['\n'] : Option (List Char)) ≠ some (writeLines []) := by
  decide

/-- C3 (amended): `clean_cache_file` on an existing file keeps exactly the
stripped lines whose path exists on the live filesystem, in original
order, rewriting the file as their newline-join plus one trailing newline.
When at least one line survives this equals each surviving line followed
by a newline, and reading the file back yields exactly the survivors; when
no line survives the file is a single newline instead of empty. -/
theorem C3_clean_keeps_existing (pathExists : List Char → Bool) (fs : FS)
    (c : List Char) (hf : fs.file = some c) :
    clean_cache_file pathExists fs =
      (.ok (), { fs with
        file := some (pyJoinNl (survivors pathExists c) ++ ['\n']) }) ∧
    (survivors pathExists c ≠ [] →
      pyJoinNl (survivors pathExists c) ++ ['\n'] =
        writeLines (survivors pathExists c) ∧
      _cache_contents (clean_cache_file pathExists fs).2 =
        .ok (survivors pathExists c)) := by
  have hclean : clean_cache_file pathExists fs =
      (.ok (), { fs with
        file := some (pyJoinNl (survivors pathExists c) ++ ['\n']) }) := by
    simp [clean_cache_file, hf]
  refine ⟨hclean, fun hne => ?_⟩
  have hwl := pyJoinNl_append_nl _ hne
  have hln : ∀ l ∈ survivors pathExists c, ('\n' : Char) ∉ l :=
    fun l hl => (survivors_spec pathExists c l hl).1
  refine ⟨hwl, ?_⟩
  rw [hclean]
  have hcc : _cache_contents
      ({ fs with
        file := some (pyJoinNl (survivors pathExists c) ++ ['\n']) } : FS) =
      .ok ((survivors pathExists c).map pyStrip) := by
    rw [hwl]
    exact contents_of_writeLines _ _ rfl hln
  rw [hcc,
    map_pyStrip_self _ (fun s hs => (survivors_spec pathExists c s hs).2)]

/-- Witness for the amended C3: a two-line file whose first path exists
and whose second does not; the survivor is the first line. -/
theorem C3_witness :
    clean_cache_file (fun s => s = ['/', 'a'])
        ⟨true, some ['/', 'a', '\n', '/', 'b', '\n']⟩ =
      (.ok (), ⟨true,
        some (pyJoinNl
          (survivors (fun s => s = ['/', 'a'])
            ['/', 'a', '\n', '/', 'b', '\n']) ++ ['\n'])⟩) ∧
    pyJoinNl (survivors (fun s => s = ['/', 'a'])
        ['/', 'a', '\n', '/', 'b', '\n']) ++ ['\n'] =
      writeLines (survivors (fun s => s = ['/', 'a'])
        ['/', 'a', '\n', '/', 'b', '\n']) ∧
    _cache_contents (clean_cache_file (fun s => s = ['/', 'a'])
        ⟨true, some ['/', 'a', '\n', '/', 'b', '\n']⟩).2 =
      .ok (survivors (fun s => s = ['/', 'a'])
        ['/', 'a', '\n', '/', 'b', '\n']) :=
  ⟨(C3_clean_keeps_existing (fun s => s = ['/', 'a'])
      ⟨true, some ['/', 'a', '\n', '/', 'b', '\n']⟩
      ['/', 'a', '\n', '/', 'b', '\n'] rfl).1,
    ((C3_clean_keeps_existing (fun s => s = ['/', 'a'])
        ⟨true, some ['/', 'a', '\n', '/', 'b', '\n']⟩
        ['/', 'a', '\n', '/', 'b', '\n'] rfl).2 (by decide)).1,
    ((C3_clean_keeps_existing (fun s => s = ['/', 'a'])
        ⟨true, some ['/', 'a', '\n', '/', 'b', '\n']⟩
        ['/', 'a', '\n', '/', 'b', '\n'] rfl).2 (by decide)).2⟩

/-- C10: when no line of an existing cache file names an existing path,
`clean_cache_file` rewrites the file to a single newline character — one
empty line, not an empty file — and a subsequent read yields exactly one
line whose stripped content is the empty string. -/
theorem C10_clean_all_stale (pathExists : List Char → Bool) (fs : FS)
    (c : List Char) (hf : fs.file = some c)
    (hstale : ∀ l ∈ fileLines c, pathExists (pyStrip l) = false) :
    clean_cache_file pathExists fs =
      (.ok (), { fs with file := some ['\n'] }) ∧
    _cache_contents ({ fs with file := some ['\n'] } : FS) = .ok [[]] := by
  have hsv : survivors pathExists c = [] := by
    rw [survivors, List.filterMap_eq_nil_iff]
    intro l hl
    rw [hstale l hl]
    simp
  constructor
  · simp [clean_cache_file, hf, hsv, pyJoinNl]
  · simp [_cache_contents]
    rfl

/-- Witness for C10 at a concrete stale file. -/
theorem C10_witness :
    clean_cache_file (fun _ => false) ⟨true, some ['x', '\n']⟩ =
      (.ok (), ⟨true, some ['\n']⟩) ∧
    _cache_contents (⟨true, some ['\n']⟩ : FS) = .ok [[]] :=
  C10_clean_all_stale (fun _ => false) ⟨true, some ['x', '\n']⟩ ['x', '\n']
    rfl (by decide)

/-- C4: `clean_cache_file` on an absent cache file raises the typed
`CacheFileNotFound` error and performs no write: the state, in particular
the (non-)existence and contents of the cache file, is returned
unchanged. -/
theorem C4_clean_missing_file (pathExists : List Char → Bool) (fs : FS)
    (hf : fs.file = none) :
    clean_cache_file pathExists fs = (.error .cacheFileNotFound, fs) := by
  simp [clean_cache_file, hf]

/-- Witness for C4 at a concrete absent file. -/
theorem C4_witness :
    clean_cache_file (fun _ => true) ⟨true, none⟩ =
      (.error .cacheFileNotFound, ⟨true, none⟩) :=
  C4_clean_missing_file (fun _ => true) ⟨true, none⟩ rfl

/-- C5 counterexample: reading an absent cache file fails with the builtin
`FileNotFoundError` raised by `open`, and that is a different exception
from the repository's typed `CacheFileNotFound` class (raised only by
`clean_cache_file`). -/
theorem C5_counterexample :
    _cache_contents ⟨true, none⟩ = .error .builtinFileNotFound ∧
    PyError.builtinFileNotFound ≠ PyError.cacheFileNotFound := by
  decide

/-- C5 (amended): on an absent cache file, `_cache_contents` and the
contains-check `_already_cached` composed from it fail with the builtin
`FileNotFoundError`, propagated unchanged to the caller and not retried —
not with the repository's typed `CacheFileNotFound` error, which only
`clean_cache_file` raises. -/
theorem C5_read_missing_file (fs : FS) (r : List Char)
    (hf : fs.file = none) :
    _cache_contents fs = .error .builtinFileNotFound ∧
    _already_cached r fs = .error .builtinFileNotFound ∧
    _cache_contents fs ≠ .error .cacheFileNotFound := by
  refine ⟨by simp [_cache_contents, hf], ?_, ?_⟩
  · simp [_already_cached, _cache_contents, hf]
  · simp [_cache_contents, hf]

/-- Witness for the amended C5 at a concrete absent file. -/
theorem C5_witness :
    _cache_contents ⟨true, none⟩ = .error .builtinFileNotFound ∧
    _already_cached ['a'] ⟨true, none⟩ = .error .builtinFileNotFound ∧
    _cache_contents (⟨true, none⟩ : FS) ≠ .error .cacheFileNotFound :=
  C5_read_missing_file ⟨true, none⟩ ['a'] rfl

/-- C6: two distinct input strings in one `cache_filepaths` batch that
resolve to the same canonical path absent from the file are both appended:
membership is only checked against the snapshot taken at the start of the
batch, so the file ends with two identical lines. -/
theorem C6_batch_duplicate :
    (['a'] : List Char) ≠ ['.', '/', 'a'] ∧
    resolveDemo ['a'] = resolveDemo ['.', '/', 'a'] ∧
    (cache_filepaths resolveDemo [['a'], ['.', '/', 'a']]
        ⟨true, some []⟩).file =
      some ['/', 'a', '\n', '/', 'a', '\n'] ∧
    _cache_contents (cache_filepaths resolveDemo [['a'], ['.', '/', 'a']]
        ⟨true, some []⟩) = .ok [['/', 'a'], ['/', 'a']] := by
  decide

/-- C8: `_setup_cache_file` is idempotent: it creates the parent directory
and an empty file when absent, never fails (it is a total function of the
state), and calling it again — or calling it when the file already exists
with content — changes nothing and never truncates existing content. -/
theorem C8_setup_idempotent (fs : FS) :
    _setup_cache_file (_setup_cache_file fs) = _setup_cache_file fs ∧
    (_setup_cache_file fs).parentExists = true ∧
    (fs.file = none → (_setup_cache_file fs).file = some []) ∧
    (∀ c, fs.file = some c → (_setup_cache_file fs).file = some c) := by
  obtain ⟨p, f⟩ := fs
  cases p <;> cases f <;> simp [_setup_cache_file]

/-- Witness for C8 at a concrete fully-uninitialized state. -/
theorem C8_witness :
    _setup_cache_file (_setup_cache_file ⟨false, none⟩) =
      _setup_cache_file ⟨false, none⟩ ∧
    (_setup_cache_file ⟨false, none⟩).parentExists = true ∧
    (_setup_cache_file ⟨false, none⟩).file = some [] :=
  ⟨(C8_setup_idempotent ⟨false, none⟩).1,
    (C8_setup_idempotent ⟨false, none⟩).2.1,
    (C8_setup_idempotent ⟨false, none⟩).2.2.1 rfl⟩

/-- C9: the default cache file location matches the spec's description:
`$XDG_CACHE_HOME/cachef/cachef.txt` when that variable is set and
non-empty, else `$HOME/cachef/cachef.txt`; in particular, with
`XDG_CACHE_HOME` unset and `HOME=/home/u`, it is
`/home/u/cachef/cachef.txt`. -/
theorem pathJoin_cachef (base : String) :
    pathJoin (pathJoin base "cachef") "cachef.txt" =
      base ++ "/cachef/cachef.txt" := by
  simp only [pathJoin, String.append_assoc]
  congr 1

theorem C9_default_location (xdg : Option String) (home : String) :
    CACHE_FILE xdg home = specDefaultLocation xdg home ∧
    CACHE_FILE none "/home/u" = "/home/u/cachef/cachef.txt" := by
  refine ⟨?_, rfl⟩
  cases xdg with
  | none =>
    rw [show specDefaultLocation none home = home ++ "/cachef/cachef.txt"
        from rfl,
      show CACHE_FILE none home =
        pathJoin (pathJoin home "cachef") "cachef.txt" from rfl]
    exact pathJoin_cachef home
  | some s =>
    by_cases hs : s = ""
    · subst hs
      rw [show CACHE_FILE (some "") home =
          pathJoin (pathJoin home "cachef") "cachef.txt" from rfl,
        show specDefaultLocation (some "") home =
          home ++ "/cachef/cachef.txt" from rfl]
      exact pathJoin_cachef home
    · have hie : s.isEmpty = false := by
        cases he : s.isEmpty
        · rfl
        · exact absurd ((String.isEmpty_iff s).mp he) hs
      have hpt : pyTruthy (some s) = true := by simp [pyTruthy, hie]
      have h1 : CACHE_FILE (some s) home =
          pathJoin (pathJoin s "cachef") "cachef.txt" := by
        unfold CACHE_FILE CACHE_DIR
        rw [hpt]
        simp
      rw [h1,
        show specDefaultLocation (some s) home =
          (if s ≠ "" then s ++ "/cachef/cachef.txt"
            else home ++ "/cachef/cachef.txt") from rfl,
        if_pos hs]
      exact pathJoin_cachef s

end Cachef
